import Mathlib

/-!
Shallow embedding of the `NetSocketSystem` of `amethyst_network`
(`src/amethyst_network/src/network_socket.rs`) together with proofs about
its per-tick dispatch loop (`NetSocketSystem::run`), its sender worker
(`NetSocketSystem::start_sending`), its receiver worker
(`NetSocketSystem::start_receiving`) and its constructor
(`NetSocketSystem::new`).

The event type of the system is an arbitrary type `α` (the Rust generic
`E`).  External collaborators enter the embedding as parameters:

* the event codec `deserialize_event` becomes a parameter
  `decode : List Nat → Except String α` on raw payload bytes, and
  `send_event` becomes a parameter `ser : α → SocketAddr → Packet`;
* the transport (`Host::run`) becomes an `Except String Unit` outcome
  passed to `new`;
* the data and control channels become explicit lists; a drain of a
  channel by `try_iter` takes the list of items currently queued and a
  `break` leaves the untaken suffix queued.

Types that `network_socket.rs` only imports from its crate
(`NetConnection`, `ConnectionState`, `ServerConfig`) are reconstructed
from the specification, as marked on each definition.
-/

namespace AmethystNet

/-- A network socket address: an opaque host identifier plus a port. -/
structure SocketAddr where
  ip : Nat
  port : Nat
deriving DecidableEq

/-- Modelled from the spec: the state label of a connection,
one of Connecting, Connected, Disconnecting, Disconnected
(spec section 3, "Connection"). -/
inductive ConnectionState where
  | Connecting
  | Connected
  | Disconnecting
  | Disconnected
deriving DecidableEq

/-- Modelled from the spec: a `NetConnection<E>` record (the type is
imported by `network_socket.rs`, not defined in it).  It is identified
by a network address `target_addr`, carries a state label, an ordered
outgoing buffer ("drained exactly once per read") and an append-only
incoming buffer (spec section 3, "Connection"). -/
structure NetConnection (α : Type) where
  target_addr : SocketAddr
  state : ConnectionState
  send_buffer : List α
  receive_buffer : List α
deriving DecidableEq

/-- Modelled from the spec: `NetConnection::new(addr)` creates a fresh
connection keyed by `addr` with empty buffers; the initial state is
Connecting (spec section 4.4, step 3: "initial state:
implementation-defined, e.g. Connecting"). -/
def NetConnection.new (α : Type) (addr : SocketAddr) : NetConnection α :=
  { target_addr := addr
    state := ConnectionState.Connecting
    send_buffer := []
    receive_buffer := [] }

/-- A raw transport datagram: source address plus opaque payload bytes
(laminar's `Packet`, as consumed by `network_socket.rs` through
`raw_event.addr()` and `raw_event.payload()`). -/
structure Packet where
  addr : SocketAddr
  payload : List Nat
deriving DecidableEq

/-- The control messages sent from the dispatch loop to the sender
worker (`InternalSocketEvent<E>` in `network_socket.rs`). -/
inductive InternalSocketEvent (α : Type) where
  | SendEvents (target : SocketAddr) (events : List α)
  | Stop
deriving DecidableEq

/-- The transport-level notifications consumed by the receiver worker
(laminar's `SocketEvent`): a packet, or some other notification that the
worker does not support. -/
inductive SocketEvent where
  | packet (p : Packet)
  | other (tag : Nat)
deriving DecidableEq

/-- The observable log lines of the system (spec section 6,
"Observability"). -/
inductive LogEntry where
  | portWarning
  | deserializeError (source : SocketAddr)
  | newConnection
  | unsupportedEvent
  | channelClosed
  | endOfRun
deriving DecidableEq

/-- Modelled from the spec: the `ServerConfig` consumed by
`NetSocketSystem` (the type is imported, not defined, in
`network_socket.rs`): a bind address `udp_socket_addr` and the per-tick
packet budget `max_throughput` (spec section 3, "TickConfig"). -/
structure ServerConfig where
  udp_socket_addr : SocketAddr
  max_throughput : Nat
deriving DecidableEq

/-- The `NetSocketSystem<E>` component: the filter list and the
configuration.  The two channel endpoints (`transport_sender`,
`transport_receiver`) are modelled as explicit queue arguments of `run`.
A filter is modelled from the spec as an `accepts(event, connectionState)`
predicate (spec section 9). -/
structure NetSocketSystem (α : Type) where
  filters : List (α → ConnectionState → Bool)
  config : ServerConfig

/-- `NetSocketSystem::new`: warns when the bind port is below 1024, then
propagates the outcome of `Host::run` (modelled as the `bindResult`
argument).  Returns the constructed system together with the log lines
emitted. -/
def new (α : Type) (config : ServerConfig) (filters : List (α → ConnectionState → Bool))
    (bindResult : Except String Unit) :
    Except String (NetSocketSystem α) × List LogEntry :=
  let logs := if config.udp_socket_addr.port < 1024 then [LogEntry.portWarning] else []
  match bindResult with
  | Except.ok _ => (Except.ok { filters := filters, config := config }, logs)
  | Except.error e => (Except.error e, logs)

/-- Whether an `Except` outcome is a success. -/
def exceptIsOk {σ β : Type} : Except σ β → Bool
  | Except.ok _ => true
  | Except.error _ => false

/-! ## Phase A: outbound reconciliation (`run`, first loop) -/

/-- One iteration of the first loop of `run` on a single connection: a
Connected or Connecting connection yields a `SendEvents` message with
its whole outgoing buffer and the buffer is left empty (the take models
`send_buffer_early_read().cloned().collect()`, modelled from the spec:
"atomically take ownership of its entire outgoing buffer; after the
take, the buffer is empty"); a Disconnected connection yields `Stop`; a
Disconnecting connection yields nothing. -/
def phaseAConn {α : Type} (c : NetConnection α) :
    Option (InternalSocketEvent α) × NetConnection α :=
  if c.state = ConnectionState.Connected ∨ c.state = ConnectionState.Connecting then
    (some (InternalSocketEvent.SendEvents c.target_addr c.send_buffer),
     { c with send_buffer := [] })
  else if c.state = ConnectionState.Disconnected then
    (some InternalSocketEvent.Stop, c)
  else
    (none, c)

/-- The control message a connection contributes in Phase A. -/
def msgOfConn {α : Type} (c : NetConnection α) : Option (InternalSocketEvent α) :=
  (phaseAConn c).1

/-- The connection record left behind by Phase A. -/
def drainConn {α : Type} (c : NetConnection α) : NetConnection α :=
  (phaseAConn c).2

/-- The first loop of `run` over the whole connection registry: the
control messages sent to the sender worker, in registry order, and the
updated registry. -/
def phaseA {α : Type} : List (NetConnection α) →
    List (InternalSocketEvent α) × List (NetConnection α)
  | [] => ([], [])
  | c :: rest =>
    let r := phaseAConn c
    let rr := phaseA rest
    (r.1.toList ++ rr.1, r.2 :: rr.2)

/-! ## Phase B: inbound reconciliation (`run`, second loop) -/

/-- The inner scan of Phase B over the registry: find the first
connection whose `target_addr` equals the packet's source address
(`break` on first match).  On a match, deserialize the payload: on
success append the event to that connection's incoming buffer
(`receive_buffer.single_write`, modelled from the spec: "append-only
sequence"); on failure log the error with the source address.  Returns
(matched?, updated registry, log lines). -/
def scanDeliver {α : Type} (decode : List Nat → Except String α) (p : Packet) :
    List (NetConnection α) → Bool × List (NetConnection α) × List LogEntry
  | [] => (false, [], [])
  | c :: rest =>
    if c.target_addr = p.addr then
      match decode p.payload with
      | Except.ok ev =>
        (true, { c with receive_buffer := c.receive_buffer ++ [ev] } :: rest, [])
      | Except.error _ =>
        (true, c :: rest, [LogEntry.deserializeError p.addr])
    else
      let r := scanDeliver decode p rest
      (r.1, c :: r.2.1, r.2.2)

/-- The `for _ in 0..2` loop of Phase B on one packet, with the number
of remaining iterations as fuel: scan the registry; on a match stop
(the `else break`); on a miss append a fresh `NetConnection` keyed by
the packet's source address to the registry (the
`entities.build_entity()...build()` call, which logs the
new-connection notice) and iterate again. -/
def phaseBAttempts {α : Type} (decode : List Nat → Except String α) (p : Packet) :
    Nat → List (NetConnection α) → List (NetConnection α) × List LogEntry
  | 0, conns => (conns, [])
  | n + 1, conns =>
    let s := scanDeliver decode p conns
    if s.1 then
      (s.2.1, s.2.2)
    else
      let created := s.2.1 ++ [NetConnection.new α p.addr]
      let r := phaseBAttempts decode p n created
      (r.1, s.2.2 ++ LogEntry.newConnection :: r.2)

/-- Processing of a single raw packet by Phase B: the double-scan loop
with two iterations. -/
def processPacket {α : Type} (decode : List Nat → Except String α) (p : Packet)
    (conns : List (NetConnection α)) : List (NetConnection α) × List LogEntry :=
  phaseBAttempts decode p 2 conns

/-- The second loop of `run`: drain the data queue, processing enqueued
packets in order;  after processing the packet with zero-based index
`counter`, `break` out when `counter >= max_throughput`, leaving the
untaken suffix of the queue for the next tick.  Returns (updated
registry, remaining queue, log lines). -/
def phaseB {α : Type} (decode : List Nat → Except String α) (maxThroughput : Nat) :
    Nat → List Packet → List (NetConnection α) →
    List (NetConnection α) × List Packet × List LogEntry
  | _, [], conns => (conns, [], [])
  | counter, p :: rest, conns =>
    let r := processPacket decode p conns
    if maxThroughput ≤ counter then
      (r.1, rest, r.2)
    else
      let rr := phaseB decode maxThroughput (counter + 1) rest r.1
      (rr.1, rr.2.1, r.2 ++ rr.2.2)

/-- `NetSocketSystem::run`, one tick of the dispatch loop: Phase A over
the registry, then Phase B over the data queue under the configured
budget, then the end-of-run log line.  Returns (updated registry,
remaining data queue, control messages enqueued, log lines). -/
def run {α : Type} (sys : NetSocketSystem α) (decode : List Nat → Except String α)
    (conns : List (NetConnection α)) (dataQueue : List Packet) :
    List (NetConnection α) × List Packet × List (InternalSocketEvent α) × List LogEntry :=
  let a := phaseA conns
  let b := phaseB decode sys.config.max_throughput 0 dataQueue a.2
  (b.1, b.2.1, a.1, b.2.2 ++ [LogEntry.endOfRun])

/-! ## The sender worker (`start_sending`) -/

/-- One drain pass of the sender worker over the control messages
currently queued (`for control_event in send_queue.try_iter()`): a
`SendEvents` message serializes and transmits each carried event in
list order to its target (`send_event`, modelled from the spec:
`serialize(event, targetAddress) → RawPacket`, then transmit); `Stop`
breaks out of the pass, leaving the messages after it queued.  Returns
(packets transmitted, messages left queued after the pass). -/
def drainPass {α : Type} (ser : α → SocketAddr → Packet) :
    List (InternalSocketEvent α) → List Packet × List (InternalSocketEvent α)
  | [] => ([], [])
  | InternalSocketEvent.SendEvents target events :: rest =>
    let r := drainPass ser rest
    (events.map (fun ev => ser ev target) ++ r.1, r.2)
  | InternalSocketEvent.Stop :: rest => ([], rest)

/-! ## The receiver worker (`start_receiving`) -/

/-- The packets carried by the `packet` notifications of a transport
stream, in stream order. -/
def packetsOf : List SocketEvent → List Packet
  | [] => []
  | SocketEvent.packet p :: rest => p :: packetsOf rest
  | SocketEvent.other _ :: rest => packetsOf rest

/-- The receiver worker's loop over the transport stream.  The second
argument abstracts the data-queue peer: `some k` means the next `k`
sends succeed and every later send fails because the peer was dropped
(crossbeam send failures are permanent); `none` means every send
succeeds.  A `packet` notification is forwarded into the data queue
when the send succeeds; when the send fails the worker logs the
dropped-channel error and forwards nothing (the `break` re-entered by
the outer `loop`).  A non-packet notification is logged as unsupported
and dropped.  Returns (packets forwarded into the data queue, log
lines). -/
def receiverLoop : List SocketEvent → Option Nat → List Packet × List LogEntry
  | [], _ => ([], [])
  | SocketEvent.packet _ :: rest, some 0 =>
    let r := receiverLoop rest (some 0)
    (r.1, LogEntry.channelClosed :: r.2)
  | SocketEvent.packet p :: rest, some (k + 1) =>
    let r := receiverLoop rest (some k)
    (p :: r.1, r.2)
  | SocketEvent.packet p :: rest, none =>
    let r := receiverLoop rest none
    (p :: r.1, r.2)
  | SocketEvent.other _ :: rest, cap =>
    let r := receiverLoop rest cap
    (r.1, LogEntry.unsupportedEvent :: r.2)

/-- The number of non-packet notifications in a transport stream. -/
def countOther : List SocketEvent → Nat
  | [] => 0
  | SocketEvent.packet _ :: rest => countOther rest
  | SocketEvent.other _ :: rest => countOther rest + 1

/-- The number of unsupported-notification log lines in a log. -/
def countUnsupported (logs : List LogEntry) : Nat :=
  logs.countP (fun l => decide (l = LogEntry.unsupportedEvent))

/-! ## Derived notions used by the statements -/

/-- The target addresses of a registry, in registry order. -/
def addrList {α : Type} (conns : List (NetConnection α)) : List SocketAddr :=
  conns.map (fun c => c.target_addr)

/-- Address uniqueness: no two live connections share a target address. -/
def addrNodup {α : Type} (conns : List (NetConnection α)) : Prop :=
  (addrList conns).Nodup

instance {α : Type} (conns : List (NetConnection α)) : Decidable (addrNodup conns) :=
  List.nodupDecidable (addrList conns)

/-- Whether a control message is a `SendEvents` addressed to `a`. -/
def isSendTo {α : Type} (a : SocketAddr) : InternalSocketEvent α → Bool
  | InternalSocketEvent.SendEvents t _ => decide (t = a)
  | InternalSocketEvent.Stop => false

/-- The `SendEvents` messages of a control-message list that are
addressed to `a`, in order. -/
def msgsTo {α : Type} (a : SocketAddr) (msgs : List (InternalSocketEvent α)) :
    List (InternalSocketEvent α) :=
  msgs.filter (isSendTo a)

/-- The total number of events held in incoming buffers across the
registry. -/
def totalReceived {α : Type} : List (NetConnection α) → Nat
  | [] => 0
  | c :: rest => c.receive_buffer.length + totalReceived rest

/-- A concrete codec on `Nat` events used to evaluate the embedding on
concrete inputs: a payload is well-formed exactly when it is a
single-byte list. -/
def natDecode : List Nat → Except String Nat
  | [n] => Except.ok n
  | _ => Except.error "malformed payload"

/-! ## Basic lemmas about Phase A -/

theorem phaseA_eq {α : Type} (conns : List (NetConnection α)) :
    phaseA conns = (conns.filterMap msgOfConn, conns.map drainConn) := by
  induction conns with
  | nil => rfl
  | cons c rest ih =>
    show ((phaseAConn c).1.toList ++ (phaseA rest).1, (phaseAConn c).2 :: (phaseA rest).2) = _
    rw [ih]
    cases h : (phaseAConn c).1 <;>
      simp [List.filterMap_cons, msgOfConn, drainConn, h]

/-! ## Basic lemmas about the Phase B scan -/

theorem scanDeliver_no_match {α : Type} (decode : List Nat → Except String α) (p : Packet)
    (l : List (NetConnection α)) (h : ∀ c ∈ l, c.target_addr ≠ p.addr) :
    scanDeliver decode p l = (false, l, []) := by
  induction l with
  | nil => rfl
  | cons c rest ih =>
    have hc : ¬ c.target_addr = p.addr := h c (List.mem_cons_self c rest)
    have hrest := ih (fun d hd => h d (List.mem_cons_of_mem c hd))
    simp [scanDeliver, hc, hrest]

theorem scanDeliver_append_no_match {α : Type} (decode : List Nat → Except String α)
    (p : Packet) (l₁ l₂ : List (NetConnection α)) (h : ∀ c ∈ l₁, c.target_addr ≠ p.addr) :
    scanDeliver decode p (l₁ ++ l₂)
      = ((scanDeliver decode p l₂).1, l₁ ++ (scanDeliver decode p l₂).2.1,
         (scanDeliver decode p l₂).2.2) := by
  induction l₁ with
  | nil => simp
  | cons c rest ih =>
    have hc : ¬ c.target_addr = p.addr := h c (List.mem_cons_self c rest)
    have hrest := ih (fun d hd => h d (List.mem_cons_of_mem c hd))
    simp [scanDeliver, hc, hrest]

theorem scanDeliver_match_head {α : Type} (decode : List Nat → Except String α)
    (p : Packet) (c : NetConnection α) (post : List (NetConnection α))
    (hc : c.target_addr = p.addr) :
    (∀ ev, decode p.payload = Except.ok ev →
        scanDeliver decode p (c :: post)
          = (true, { c with receive_buffer := c.receive_buffer ++ [ev] } :: post, []))
    ∧ (∀ e, decode p.payload = Except.error e →
        scanDeliver decode p (c :: post)
          = (true, c :: post, [LogEntry.deserializeError p.addr])) := by
  constructor
  · intro ev hev
    simp [scanDeliver, hc, hev]
  · intro e he
    simp [scanDeliver, hc, he]

theorem scanDeliver_false {α : Type} (decode : List Nat → Except String α) (p : Packet)
    (l : List (NetConnection α)) (h : (scanDeliver decode p l).1 = false) :
    (scanDeliver decode p l).2.1 = l ∧ ∀ c ∈ l, c.target_addr ≠ p.addr := by
  induction l with
  | nil => exact ⟨rfl, by simp⟩
  | cons c rest ih =>
    by_cases hc : c.target_addr = p.addr
    · exfalso
      cases hd : decode p.payload <;> simp [scanDeliver, hc, hd] at h
    · have h' : (scanDeliver decode p rest).1 = false := by
        simpa [scanDeliver, hc] using h
      have := ih h'
      refine ⟨by simp [scanDeliver, hc, this.1], ?_⟩
      intro d hd
      rcases List.mem_cons.mp hd with rfl | hmem
      · exact hc
      · exact this.2 d hmem

theorem drainConn_target_addr {α : Type} (c : NetConnection α) :
    (drainConn c).target_addr = c.target_addr := by
  unfold drainConn phaseAConn
  split_ifs <;> rfl

theorem drainConn_state {α : Type} (c : NetConnection α) :
    (drainConn c).state = c.state := by
  unfold drainConn phaseAConn
  split_ifs <;> rfl

theorem drainConn_of_sendable {α : Type} (c : NetConnection α)
    (hs : c.state = ConnectionState.Connected ∨ c.state = ConnectionState.Connecting) :
    drainConn c = { c with send_buffer := [] } := by
  unfold drainConn phaseAConn
  rw [if_pos hs]

theorem msgOfConn_of_sendable {α : Type} (c : NetConnection α)
    (hs : c.state = ConnectionState.Connected ∨ c.state = ConnectionState.Connecting) :
    msgOfConn c = some (InternalSocketEvent.SendEvents c.target_addr c.send_buffer) := by
  unfold msgOfConn phaseAConn
  rw [if_pos hs]

theorem isSendTo_msgOfConn {α : Type} (c : NetConnection α) (a : SocketAddr)
    (hne : c.target_addr ≠ a) (m : InternalSocketEvent α) (hm : msgOfConn c = some m) :
    isSendTo a m = false := by
  unfold msgOfConn phaseAConn at hm
  split_ifs at hm with h1 h2
  · simp only [Prod.fst] at hm
    cases hm
    simp [isSendTo, hne]
  · simp only [Prod.fst] at hm
    cases hm
    simp [isSendTo]

theorem filter_isSendTo_filterMap_nil {α : Type} (a : SocketAddr)
    (l : List (NetConnection α)) (h : ∀ d ∈ l, d.target_addr ≠ a) :
    List.filter (isSendTo a) (l.filterMap msgOfConn) = [] := by
  induction l with
  | nil => rfl
  | cons c rest ih =>
    have hc := h c (List.mem_cons_self c rest)
    have hrest := ih (fun d hd => h d (List.mem_cons_of_mem c hd))
    rw [List.filterMap_cons]
    cases hm : msgOfConn c with
    | none => exact hrest
    | some m =>
      have hfalse := isSendTo_msgOfConn c a hc m hm
      simp [List.filter_cons, hfalse, hrest]

theorem msgsTo_phaseA_nil {α : Type} (a : SocketAddr) (l : List (NetConnection α))
    (h : ∀ d ∈ l, d.target_addr ≠ a) : msgsTo a (phaseA l).1 = [] := by
  rw [phaseA_eq]
  exact filter_isSendTo_filterMap_nil a l h

theorem msgsTo_phaseA_middle {α : Type} (pre post : List (NetConnection α))
    (c : NetConnection α)
    (hpre : ∀ d ∈ pre, d.target_addr ≠ c.target_addr)
    (hpost : ∀ d ∈ post, d.target_addr ≠ c.target_addr)
    (hs : c.state = ConnectionState.Connected ∨ c.state = ConnectionState.Connecting) :
    msgsTo c.target_addr (phaseA (pre ++ c :: post)).1
      = [InternalSocketEvent.SendEvents c.target_addr c.send_buffer] := by
  rw [phaseA_eq]
  show List.filter (isSendTo c.target_addr) ((pre ++ c :: post).filterMap msgOfConn) = _
  rw [List.filterMap_append, List.filterMap_cons, msgOfConn_of_sendable c hs,
    List.filter_append, filter_isSendTo_filterMap_nil c.target_addr pre hpre]
  simp [List.filter_cons, isSendTo,
    filter_isSendTo_filterMap_nil c.target_addr post hpost]

theorem processPacket_matched {α : Type} (decode : List Nat → Except String α) (p : Packet)
    (conns : List (NetConnection α)) (hm : (scanDeliver decode p conns).1 = true) :
    processPacket decode p conns
      = ((scanDeliver decode p conns).2.1, (scanDeliver decode p conns).2.2) := by
  simp [processPacket, phaseBAttempts, hm]

theorem processPacket_unmatched_ok {α : Type} (decode : List Nat → Except String α)
    (p : Packet) (conns : List (NetConnection α))
    (h : ∀ c ∈ conns, c.target_addr ≠ p.addr) (ev : α)
    (hev : decode p.payload = Except.ok ev) :
    processPacket decode p conns
      = (conns ++ [⟨p.addr, ConnectionState.Connecting, [], [ev]⟩],
         [LogEntry.newConnection]) := by
  have hscan : scanDeliver decode p conns = (false, conns, []) :=
    scanDeliver_no_match decode p conns h
  have happ := scanDeliver_append_no_match decode p conns [NetConnection.new α p.addr] h
  simp only [NetConnection.new] at happ
  have hnewaddr : (NetConnection.new α p.addr).target_addr = p.addr := rfl
  have hhead : scanDeliver decode p
      [(⟨p.addr, ConnectionState.Connecting, [], []⟩ : NetConnection α)]
      = (true, [⟨p.addr, ConnectionState.Connecting, [], [ev]⟩], []) := by
    simpa [NetConnection.new] using
      (scanDeliver_match_head decode p (NetConnection.new α p.addr) [] hnewaddr).1 ev hev
  simp [processPacket, phaseBAttempts, hscan, happ, hhead, NetConnection.new]

theorem processPacket_unmatched_error {α : Type} (decode : List Nat → Except String α)
    (p : Packet) (conns : List (NetConnection α))
    (h : ∀ c ∈ conns, c.target_addr ≠ p.addr) (e : String)
    (he : decode p.payload = Except.error e) :
    processPacket decode p conns
      = (conns ++ [NetConnection.new α p.addr],
         [LogEntry.newConnection, LogEntry.deserializeError p.addr]) := by
  have hscan : scanDeliver decode p conns = (false, conns, []) :=
    scanDeliver_no_match decode p conns h
  have happ := scanDeliver_append_no_match decode p conns [NetConnection.new α p.addr] h
  simp only [NetConnection.new] at happ
  have hnewaddr : (NetConnection.new α p.addr).target_addr = p.addr := rfl
  have hhead : scanDeliver decode p
      [(⟨p.addr, ConnectionState.Connecting, [], []⟩ : NetConnection α)]
      = (true, [⟨p.addr, ConnectionState.Connecting, [], []⟩],
         [LogEntry.deserializeError p.addr]) := by
    simpa [NetConnection.new] using
      (scanDeliver_match_head decode p (NetConnection.new α p.addr) [] hnewaddr).2 e he
  simp [processPacket, phaseBAttempts, hscan, happ, hhead, NetConnection.new]

theorem scanDeliver_new_matches {α : Type} (decode : List Nat → Except String α)
    (p : Packet) (conns : List (NetConnection α))
    (h : ∀ c ∈ conns, c.target_addr ≠ p.addr) :
    (scanDeliver decode p (conns ++ [NetConnection.new α p.addr])).1 = true := by
  have happ := scanDeliver_append_no_match decode p conns [NetConnection.new α p.addr] h
  simp only [NetConnection.new] at happ
  have hnewaddr : (NetConnection.new α p.addr).target_addr = p.addr := rfl
  cases hd : decode p.payload with
  | ok ev =>
    have hhead : scanDeliver decode p
        [(⟨p.addr, ConnectionState.Connecting, [], []⟩ : NetConnection α)]
        = (true, [⟨p.addr, ConnectionState.Connecting, [], [ev]⟩], []) := by
      simpa [NetConnection.new] using
        (scanDeliver_match_head decode p (NetConnection.new α p.addr) [] hnewaddr).1 ev hd
    simp [happ, hhead, NetConnection.new]
  | error e =>
    have hhead : scanDeliver decode p
        [(⟨p.addr, ConnectionState.Connecting, [], []⟩ : NetConnection α)]
        = (true, [⟨p.addr, ConnectionState.Connecting, [], []⟩],
           [LogEntry.deserializeError p.addr]) := by
      simpa [NetConnection.new] using
        (scanDeliver_match_head decode p (NetConnection.new α p.addr) [] hnewaddr).2 e hd
    simp [happ, hhead, NetConnection.new]

/-! ## Claim theorems (first batch) -/

/-- C4: a packet whose source address matches no live connection causes
exactly one new connection, keyed by the packet's source address, to be
created; when the payload deserializes the decoded event is delivered
into the new connection's incoming buffer within the same tick (and on
a codec failure the error is logged instead); the second scan always
finds the new connection, so the silent-discard fallback is never
reached and no further connection is created. -/
theorem new_connection_delivery {α : Type} (decode : List Nat → Except String α)
    (p : Packet) (conns : List (NetConnection α))
    (h : ∀ c ∈ conns, c.target_addr ≠ p.addr) :
    (∀ ev, decode p.payload = Except.ok ev →
        processPacket decode p conns
          = (conns ++ [⟨p.addr, ConnectionState.Connecting, [], [ev]⟩],
             [LogEntry.newConnection]))
    ∧ (∀ e, decode p.payload = Except.error e →
        processPacket decode p conns
          = (conns ++ [NetConnection.new α p.addr],
             [LogEntry.newConnection, LogEntry.deserializeError p.addr]))
    ∧ (scanDeliver decode p (conns ++ [NetConnection.new α p.addr])).1 = true := by
  refine ⟨?_, ?_, scanDeliver_new_matches decode p conns h⟩
  · intro ev hev
    exact processPacket_unmatched_ok decode p conns h ev hev
  · intro e he
    exact processPacket_unmatched_error decode p conns h e he

/-- Witness for C4 at a concrete input: a packet from the unknown
address `⟨9, 4001⟩` whose payload decodes to the event `7`, against a
registry holding one unrelated connection. -/
theorem new_connection_delivery_witness :
    (∀ c ∈ [(⟨⟨2, 4000⟩, ConnectionState.Connected, [], []⟩ : NetConnection Nat)],
        c.target_addr ≠ (⟨9, 4001⟩ : SocketAddr))
    ∧ processPacket natDecode ⟨⟨9, 4001⟩, [7]⟩
        [⟨⟨2, 4000⟩, ConnectionState.Connected, [], []⟩]
      = ([⟨⟨2, 4000⟩, ConnectionState.Connected, [], []⟩,
          ⟨⟨9, 4001⟩, ConnectionState.Connecting, [], [7]⟩],
         [LogEntry.newConnection]) := by
  refine ⟨by decide, ?_⟩
  exact (new_connection_delivery natDecode ⟨⟨9, 4001⟩, [7]⟩
    [⟨⟨2, 4000⟩, ConnectionState.Connected, [], []⟩] (by decide)).1 7 rfl

/-- C5: a packet whose payload fails to deserialize and whose source
address matches a live connection only produces a log line carrying the
source address: the registry is completely unchanged (nothing is
appended to any incoming buffer, no connection is created), and Phase B
continues with the next queued packet from the same registry, so later
packets of the same tick are processed exactly as they would have been. -/
theorem deserialize_failure_isolated {α : Type} (decode : List Nat → Except String α)
    (maxT counter : Nat) (p : Packet) (rest : List Packet)
    (pre post : List (NetConnection α)) (c : NetConnection α) (e : String)
    (hpre : ∀ d ∈ pre, d.target_addr ≠ p.addr)
    (hc : c.target_addr = p.addr)
    (hd : decode p.payload = Except.error e) :
    processPacket decode p (pre ++ c :: post)
        = (pre ++ c :: post, [LogEntry.deserializeError p.addr])
    ∧ (counter < maxT →
        phaseB decode maxT counter (p :: rest) (pre ++ c :: post)
          = ((phaseB decode maxT (counter + 1) rest (pre ++ c :: post)).1,
             (phaseB decode maxT (counter + 1) rest (pre ++ c :: post)).2.1,
             LogEntry.deserializeError p.addr
               :: (phaseB decode maxT (counter + 1) rest (pre ++ c :: post)).2.2)) := by
  have happ := scanDeliver_append_no_match decode p pre (c :: post) hpre
  have hhead := (scanDeliver_match_head decode p c post hc).2 e hd
  have hproc : processPacket decode p (pre ++ c :: post)
      = (pre ++ c :: post, [LogEntry.deserializeError p.addr]) := by
    simp [processPacket, phaseBAttempts, happ, hhead]
  refine ⟨hproc, ?_⟩
  intro hlt
  have hnotle : ¬ maxT ≤ counter := Nat.not_le_of_lt hlt
  simp [phaseB, hproc, hnotle]

/-- Witness for C5 at a concrete input: a malformed packet from the
known address `⟨3, 4100⟩`, followed in the same tick by a well-formed
packet from the same address whose event `9` is still delivered. -/
theorem deserialize_failure_isolated_witness :
    natDecode [] = Except.error "malformed payload"
    ∧ processPacket natDecode ⟨⟨3, 4100⟩, []⟩
        [⟨⟨3, 4100⟩, ConnectionState.Connected, [], []⟩]
      = ([⟨⟨3, 4100⟩, ConnectionState.Connected, [], []⟩],
         [LogEntry.deserializeError ⟨3, 4100⟩])
    ∧ (phaseB natDecode 10 0 [⟨⟨3, 4100⟩, []⟩, ⟨⟨3, 4100⟩, [9]⟩]
         [⟨⟨3, 4100⟩, ConnectionState.Connected, [], []⟩]).1
      = [⟨⟨3, 4100⟩, ConnectionState.Connected, [], [9]⟩] := by
  refine ⟨rfl, ?_, by decide⟩
  exact (deserialize_failure_isolated natDecode 10 0 ⟨⟨3, 4100⟩, []⟩
    [⟨⟨3, 4100⟩, [9]⟩] [] []
    ⟨⟨3, 4100⟩, ConnectionState.Connected, [], []⟩ "malformed payload"
    (by decide) rfl rfl).1

/-- C3: in Phase A the dispatch loop enqueues exactly one control
message per connection according to its state: `SendEvents` with the
connection's buffered outgoing events, tagged with its address, for
Connected and Connecting; `Stop` for Disconnected; no message for
Disconnecting. -/
theorem phaseA_message_per_state :
    ∀ {α : Type} (conns : List (NetConnection α)) (addr : SocketAddr)
      (sendb recvb : List α),
      (phaseA conns).1 = conns.filterMap msgOfConn
      ∧ msgOfConn ⟨addr, ConnectionState.Connected, sendb, recvb⟩
          = some (InternalSocketEvent.SendEvents addr sendb)
      ∧ msgOfConn ⟨addr, ConnectionState.Connecting, sendb, recvb⟩
          = some (InternalSocketEvent.SendEvents addr sendb)
      ∧ msgOfConn ⟨addr, ConnectionState.Disconnected, sendb, recvb⟩
          = some InternalSocketEvent.Stop
      ∧ msgOfConn ⟨addr, ConnectionState.Disconnecting, sendb, recvb⟩
          = none := by
  intro α conns addr sendb recvb
  refine ⟨by rw [phaseA_eq], ?_, ?_, ?_, ?_⟩ <;> simp [msgOfConn, phaseAConn]

/-- C2: for a connection in state Connected or Connecting, under address
uniqueness, Phase A forwards the events present in its outgoing buffer
at tick start in exactly one `SendEvents` control message, leaves its
outgoing buffer empty immediately after Phase A, and on the next tick
the one `SendEvents` message for that connection carries the empty
list, so the same events are never forwarded again. -/
theorem phaseA_exactly_once_drain {α : Type} (pre post : List (NetConnection α))
    (c : NetConnection α)
    (hnd : addrNodup (pre ++ c :: post))
    (hs : c.state = ConnectionState.Connected ∨ c.state = ConnectionState.Connecting) :
    msgsTo c.target_addr (phaseA (pre ++ c :: post)).1
        = [InternalSocketEvent.SendEvents c.target_addr c.send_buffer]
    ∧ (phaseA (pre ++ c :: post)).2
        = pre.map drainConn ++ { c with send_buffer := [] } :: post.map drainConn
    ∧ msgsTo c.target_addr (phaseA (phaseA (pre ++ c :: post)).2).1
        = [InternalSocketEvent.SendEvents c.target_addr []] := by
  have hmem : c.target_addr
      ∉ pre.map (fun d => d.target_addr) ++ post.map (fun d => d.target_addr) := by
    have hnd' : (addrList (pre ++ c :: post)).Nodup := hnd
    unfold addrList at hnd'
    rw [List.map_append, List.map_cons] at hnd'
    exact (List.nodup_cons.mp (List.nodup_middle.mp hnd')).1
  have hpre : ∀ d ∈ pre, d.target_addr ≠ c.target_addr := by
    intro d hd heq
    exact hmem (List.mem_append_left _ (heq ▸ List.mem_map_of_mem _ hd))
  have hpost : ∀ d ∈ post, d.target_addr ≠ c.target_addr := by
    intro d hd heq
    exact hmem (List.mem_append_right _ (heq ▸ List.mem_map_of_mem _ hd))
  have h2 : (phaseA (pre ++ c :: post)).2
      = pre.map drainConn ++ { c with send_buffer := [] } :: post.map drainConn := by
    rw [phaseA_eq]
    show (pre ++ c :: post).map drainConn = _
    rw [List.map_append, List.map_cons, drainConn_of_sendable c hs]
  refine ⟨msgsTo_phaseA_middle pre post c hpre hpost hs, h2, ?_⟩
  rw [h2]
  have hpre' : ∀ d ∈ pre.map drainConn,
      d.target_addr ≠ ({ c with send_buffer := ([] : List α) }).target_addr := by
    intro d hd
    obtain ⟨d0, hd0, rfl⟩ := List.mem_map.mp hd
    rw [drainConn_target_addr]
    exact hpre d0 hd0
  have hpost' : ∀ d ∈ post.map drainConn,
      d.target_addr ≠ ({ c with send_buffer := ([] : List α) }).target_addr := by
    intro d hd
    obtain ⟨d0, hd0, rfl⟩ := List.mem_map.mp hd
    rw [drainConn_target_addr]
    exact hpost d0 hd0
  exact msgsTo_phaseA_middle (pre.map drainConn) (post.map drainConn)
    { c with send_buffer := [] } hpre' hpost' hs

/-- Witness for C2 at a concrete registry: connection `⟨1, 4200⟩` is
Connected with outgoing buffer `[5, 6]` and connection `⟨2, 4200⟩` is
Disconnected. -/
theorem phaseA_exactly_once_drain_witness :
    addrNodup
        [(⟨⟨1, 4200⟩, ConnectionState.Connected, [5, 6], []⟩ : NetConnection Nat),
         ⟨⟨2, 4200⟩, ConnectionState.Disconnected, [], []⟩]
    ∧ (msgsTo ⟨1, 4200⟩
          (phaseA
            [(⟨⟨1, 4200⟩, ConnectionState.Connected, [5, 6], []⟩ : NetConnection Nat),
             ⟨⟨2, 4200⟩, ConnectionState.Disconnected, [], []⟩]).1
          = [InternalSocketEvent.SendEvents ⟨1, 4200⟩ [5, 6]]
        ∧ (phaseA
            [(⟨⟨1, 4200⟩, ConnectionState.Connected, [5, 6], []⟩ : NetConnection Nat),
             ⟨⟨2, 4200⟩, ConnectionState.Disconnected, [], []⟩]).2
          = [⟨⟨1, 4200⟩, ConnectionState.Connected, [], []⟩,
             ⟨⟨2, 4200⟩, ConnectionState.Disconnected, [], []⟩]
        ∧ msgsTo ⟨1, 4200⟩
            (phaseA
              (phaseA
                [(⟨⟨1, 4200⟩, ConnectionState.Connected, [5, 6], []⟩ : NetConnection Nat),
                 ⟨⟨2, 4200⟩, ConnectionState.Disconnected, [], []⟩]).2).1
          = [InternalSocketEvent.SendEvents ⟨1, 4200⟩ []]) := by
  refine ⟨by decide, ?_⟩
  exact phaseA_exactly_once_drain []
    [⟨⟨2, 4200⟩, ConnectionState.Disconnected, [], []⟩]
    ⟨⟨1, 4200⟩, ConnectionState.Connected, [5, 6], []⟩
    (by decide) (Or.inl rfl)

/-! ## Lemmas about the address list and the incoming-buffer totals -/

theorem addrList_append {α : Type} (l₁ l₂ : List (NetConnection α)) :
    addrList (l₁ ++ l₂) = addrList l₁ ++ addrList l₂ := by
  simp [addrList]

theorem addrList_phaseA {α : Type} (l : List (NetConnection α)) :
    addrList (phaseA l).2 = addrList l := by
  rw [phaseA_eq]
  simp [addrList, List.map_map, Function.comp, drainConn_target_addr]

theorem addrList_scanDeliver {α : Type} (decode : List Nat → Except String α)
    (p : Packet) (l : List (NetConnection α)) :
    addrList (scanDeliver decode p l).2.1 = addrList l := by
  induction l with
  | nil => rfl
  | cons c rest ih =>
    by_cases hc : c.target_addr = p.addr
    · cases hd : decode p.payload <;> simp [scanDeliver, hc, hd, addrList]
    · simp [scanDeliver, hc, addrList] at ih ⊢
      exact ih

theorem mem_addrList {α : Type} (l : List (NetConnection α)) (a : SocketAddr)
    (h : ∀ c ∈ l, c.target_addr ≠ a) : a ∉ addrList l := by
  intro hmem
  obtain ⟨c, hc, heq⟩ := List.mem_map.mp hmem
  exact h c hc heq

theorem processPacket_nodup {α : Type} (decode : List Nat → Except String α)
    (p : Packet) (conns : List (NetConnection α)) (h : addrNodup conns) :
    addrNodup (processPacket decode p conns).1 := by
  cases hm : (scanDeliver decode p conns).1 with
  | true =>
    rw [processPacket_matched decode p conns hm]
    show (addrList (scanDeliver decode p conns).2.1).Nodup
    rw [addrList_scanDeliver]
    exact h
  | false =>
    obtain ⟨-, hnm⟩ := scanDeliver_false decode p conns hm
    have hnotmem : p.addr ∉ addrList conns := mem_addrList conns p.addr hnm
    cases hd : decode p.payload with
    | ok ev =>
      rw [processPacket_unmatched_ok decode p conns hnm ev hd]
      show (addrList (conns ++ [⟨p.addr, ConnectionState.Connecting, [], [ev]⟩])).Nodup
      rw [addrList_append]
      refine List.Nodup.append h (List.nodup_singleton p.addr) ?_
      intro a ha ha'
      rw [List.mem_singleton.mp ha'] at ha
      exact hnotmem ha
    | error e =>
      rw [processPacket_unmatched_error decode p conns hnm e hd]
      show (addrList (conns ++ [NetConnection.new α p.addr])).Nodup
      rw [addrList_append]
      refine List.Nodup.append h (List.nodup_singleton p.addr) ?_
      intro a ha ha'
      rw [List.mem_singleton.mp ha'] at ha
      exact hnotmem ha

theorem phaseB_nodup {α : Type} (decode : List Nat → Except String α) (maxT : Nat) :
    ∀ (q : List Packet) (counter : Nat) (conns : List (NetConnection α)),
      addrNodup conns → addrNodup (phaseB decode maxT counter q conns).1 := by
  intro q
  induction q with
  | nil =>
    intro counter conns h
    exact h
  | cons p rest ih =>
    intro counter conns h
    by_cases hle : maxT ≤ counter
    · simp only [phaseB, if_pos hle]
      exact processPacket_nodup decode p conns h
    · simp only [phaseB, if_neg hle]
      exact ih (counter + 1) _ (processPacket_nodup decode p conns h)

theorem totalReceived_append {α : Type} (l₁ l₂ : List (NetConnection α)) :
    totalReceived (l₁ ++ l₂) = totalReceived l₁ + totalReceived l₂ := by
  induction l₁ with
  | nil => simp [totalReceived]
  | cons c rest ih => simp [totalReceived, ih, Nat.add_assoc]

theorem totalReceived_scanDeliver {α : Type} (decode : List Nat → Except String α)
    (p : Packet) (l : List (NetConnection α)) :
    totalReceived (scanDeliver decode p l).2.1 ≤ totalReceived l + 1 := by
  induction l with
  | nil => simp [scanDeliver, totalReceived]
  | cons c rest ih =>
    by_cases hc : c.target_addr = p.addr
    · cases hd : decode p.payload with
      | ok ev =>
        simp [scanDeliver, hc, hd, totalReceived]
        omega
      | error e =>
        simp [scanDeliver, hc, hd, totalReceived]
    · simp [scanDeliver, hc, totalReceived]
      omega

theorem processPacket_totalReceived {α : Type} (decode : List Nat → Except String α)
    (p : Packet) (cs : List (NetConnection α)) :
    totalReceived (processPacket decode p cs).1 ≤ totalReceived cs + 1 := by
  cases hm : (scanDeliver decode p cs).1 with
  | true =>
    rw [processPacket_matched decode p cs hm]
    exact totalReceived_scanDeliver decode p cs
  | false =>
    obtain ⟨-, hnm⟩ := scanDeliver_false decode p cs hm
    cases hd : decode p.payload with
    | ok ev =>
      rw [processPacket_unmatched_ok decode p cs hnm ev hd, totalReceived_append]
      simp [totalReceived]
    | error e =>
      rw [processPacket_unmatched_error decode p cs hnm e hd, totalReceived_append]
      simp [totalReceived, NetConnection.new]

/-- C6: address uniqueness is an invariant of the dispatch loop: when
no two live connections share a target address at tick start, the same
holds after the tick (`run` only creates a connection for an address no
live connection matched), and each processed packet appends its event
to the incoming buffer of at most one connection (first match wins). -/
theorem address_uniqueness_invariant {α : Type} (sys : NetSocketSystem α)
    (decode : List Nat → Except String α) (conns : List (NetConnection α))
    (q : List Packet) (p : Packet) (cs : List (NetConnection α))
    (h : addrNodup conns) :
    addrNodup (run sys decode conns q).1
    ∧ totalReceived (processPacket decode p cs).1 ≤ totalReceived cs + 1 := by
  constructor
  · show addrNodup
      (phaseB decode sys.config.max_throughput 0 q (phaseA conns).2).1
    refine phaseB_nodup decode sys.config.max_throughput q 0 (phaseA conns).2 ?_
    show (addrList (phaseA conns).2).Nodup
    rw [addrList_phaseA]
    exact h
  · exact processPacket_totalReceived decode p cs

/-- Witness for C6 at a concrete input: a registry with two connections
at distinct addresses, a tick that creates a connection for the unknown
address `⟨3, 3⟩`, and one concrete packet-processing step. -/
theorem address_uniqueness_invariant_witness :
    addrNodup
        [(⟨⟨1, 1⟩, ConnectionState.Connected, [], []⟩ : NetConnection Nat),
         ⟨⟨2, 2⟩, ConnectionState.Connecting, [], []⟩]
    ∧ (addrNodup
          (run ⟨[], ⟨⟨0, 9⟩, 5⟩⟩ natDecode
            [(⟨⟨1, 1⟩, ConnectionState.Connected, [], []⟩ : NetConnection Nat),
             ⟨⟨2, 2⟩, ConnectionState.Connecting, [], []⟩]
            [⟨⟨3, 3⟩, [4]⟩]).1
        ∧ totalReceived
            (processPacket natDecode ⟨⟨1, 1⟩, [4]⟩
              [(⟨⟨1, 1⟩, ConnectionState.Connected, [], []⟩ : NetConnection Nat)]).1
          ≤ totalReceived
              [(⟨⟨1, 1⟩, ConnectionState.Connected, [], []⟩ : NetConnection Nat)] + 1) := by
  refine ⟨by decide, ?_⟩
  exact address_uniqueness_invariant ⟨[], ⟨⟨0, 9⟩, 5⟩⟩ natDecode
    [⟨⟨1, 1⟩, ConnectionState.Connected, [], []⟩,
     ⟨⟨2, 2⟩, ConnectionState.Connecting, [], []⟩]
    [⟨⟨3, 3⟩, [4]⟩] ⟨⟨1, 1⟩, [4]⟩
    [⟨⟨1, 1⟩, ConnectionState.Connected, [], []⟩] (by decide)

/-- C7: in one drain pass of the sender worker, a `SendEvents{target,
events}` message transmits the serialization of each event of `events`
in list order, addressed to `target`, and a `Stop` message terminates
the pass, leaving the control messages after it unprocessed in that
pass. -/
theorem sender_drain_pass :
    ∀ {α : Type} (ser : α → SocketAddr → Packet) (target : SocketAddr)
      (events : List α) (rest rest2 : List (InternalSocketEvent α)),
      drainPass ser (InternalSocketEvent.SendEvents target events :: rest)
          = ((events.map fun ev => ser ev target) ++ (drainPass ser rest).1,
             (drainPass ser rest).2)
      ∧ drainPass ser (InternalSocketEvent.Stop :: rest2) = ([], rest2) := by
  intro α ser target events rest rest2
  exact ⟨rfl, rfl⟩

/-! ## Lemmas about the receiver worker -/

theorem receiverLoop_take (events : List SocketEvent) :
    ∀ k : Nat, (receiverLoop events (some k)).1 = (packetsOf events).take k := by
  induction events with
  | nil =>
    intro k
    simp [receiverLoop, packetsOf]
  | cons e rest ih =>
    intro k
    cases e with
    | packet p =>
      cases k with
      | zero => simp [receiverLoop, packetsOf, ih 0]
      | succ k => simp [receiverLoop, packetsOf, ih k]
    | other t => simp [receiverLoop, packetsOf, ih k]

theorem receiverLoop_none (events : List SocketEvent) :
    (receiverLoop events none).1 = packetsOf events := by
  induction events with
  | nil => rfl
  | cons e rest ih =>
    cases e with
    | packet p => simp [receiverLoop, packetsOf, ih]
    | other t => simp [receiverLoop, packetsOf, ih]

theorem receiverLoop_countUnsupported (events : List SocketEvent) :
    ∀ cap : Option Nat, countUnsupported (receiverLoop events cap).2 = countOther events := by
  induction events with
  | nil =>
    intro cap
    rfl
  | cons e rest ih =>
    intro cap
    cases e with
    | packet p =>
      cases cap with
      | none =>
        simp only [receiverLoop, countOther]
        exact ih none
      | some k =>
        cases k with
        | zero =>
          simp [receiverLoop, countOther, countUnsupported, List.countP_cons]
          exact ih (some 0)
        | succ k =>
          simp only [receiverLoop, countOther]
          exact ih (some k)
    | other t =>
      simp [receiverLoop, countOther, countUnsupported, List.countP_cons]
      exact ih cap

/-- C8: the receiver worker forwards into the data queue exactly a
prefix of the packets observed on the transport stream, in stream
order — each packet at most once — where the prefix length is the
number of sends that succeed before the data queue's peer is dropped
(all of them when it never is); after the first send failure no further
packet is ever forwarded; non-packet notifications are never forwarded
and each is logged as unsupported. -/
theorem receiver_forwarding :
    ∀ (events : List SocketEvent) (k : Nat) (cap : Option Nat),
      (receiverLoop events (some k)).1 = (packetsOf events).take k
      ∧ (receiverLoop events none).1 = packetsOf events
      ∧ countUnsupported (receiverLoop events cap).2 = countOther events := by
  intro events k cap
  exact ⟨receiverLoop_take events k, receiverLoop_none events,
    receiverLoop_countUnsupported events cap⟩

/-- C9: `new` fails exactly when the transport bind fails, for every
configuration; a bind port below 1024 only adds a warning log line and
never turns a successful construction into an error. -/
theorem new_bind_outcome :
    ∀ (α : Type) (config : ServerConfig)
      (filters : List (α → ConnectionState → Bool))
      (bindResult : Except String Unit),
      exceptIsOk (new α config filters bindResult).1 = exceptIsOk bindResult
      ∧ (new α config filters bindResult).2
          = (if config.udp_socket_addr.port < 1024 then [LogEntry.portWarning] else []) := by
  intro α config filters bindResult
  cases bindResult <;> exact ⟨rfl, rfl⟩

/-- C10: the stored filter list has no effect on the dispatch loop: two
systems that differ only in their `filters` lists produce, on any
registry and data queue, the same updated registry, the same remaining
queue, the same control messages and the same logs. -/
theorem filters_unused_in_dispatch :
    ∀ {α : Type} (f₁ f₂ : List (α → ConnectionState → Bool)) (cfg : ServerConfig)
      (decode : List Nat → Except String α) (conns : List (NetConnection α))
      (q : List Packet),
      run { filters := f₁, config := cfg } decode conns q
        = run { filters := f₂, config := cfg } decode conns q := by
  intro α f₁ f₂ cfg decode conns q
  rfl

/-- C1 (code bug evaluation): with `max_throughput = 1` and two queued
packets, one tick of `run` processes both packets (the budget check
`counter >= max_throughput` runs only after the packet with zero-based
index `counter` has been processed), leaving the queue empty, whereas
the claim requires exactly `min(2, 1) = 1` packet processed and the
second packet left queued. -/
theorem budget_off_by_one :
    run ⟨[], ⟨⟨0, 6000⟩, 1⟩⟩ natDecode
        [⟨⟨1, 5000⟩, ConnectionState.Connected, [], []⟩]
        [⟨⟨1, 5000⟩, [7]⟩, ⟨⟨1, 5000⟩, [8]⟩]
      = ([⟨⟨1, 5000⟩, ConnectionState.Connected, [], [7, 8]⟩],
         [],
         [InternalSocketEvent.SendEvents ⟨1, 5000⟩ []],
         [LogEntry.endOfRun]) := by
  decide

end AmethystNet
